import Mathlib

/-
Shallow embedding of scripts/convert-paddleocr-models.py.

The script orchestrates a batch conversion of PaddleOCR checkpoints to ONNX:
it resolves request tokens against a static URL catalog (MODEL_URLS),
downloads and extracts archives (download_model), invokes an external
converter with a task-type-specific input shape (convert_to_onnx), optimizes
and quantizes the converted graph or falls back to a byte copy when the
optimization library is unavailable (optimize_onnx_for_web), accumulates a
manifest dict keyed by model name, and writes a metadata file once at the end
(create_model_metadata).

Modelling conventions:
 - Filesystem state is explicit: `FetchState` carries the set of paths that
   exist under the scratch directory plus counters of performed downloads and
   extractions; output files are an association list from path to content
   (contents are abstract strings).
 - External tools (paddle2onnx, the optimizer, the quantizer) are opaque
   content transformers supplied in a `Tools` record; the flag
   `Tools.available` models whether the optimization library import succeeds.
 - Python dict assignment is `dictInsert` (replace in place, append when the
   key is new), dict lookup is `dictGet`.
 - Python `s.split(sep, 1)` unpacked into two variables is
   `splitFirstUnderscore`, returning `none` exactly when the unpacking would
   raise `ValueError` (no separator present); the per-model try/except of the
   orchestrator loop is modelled by the skip branches of `processToken`.
 - Python `s.replace(a, b)` replaces every non-overlapping occurrence from
   the left: `stripTar` for `.replace(".tar", "")`, `replOnnxQuant` for
   `.replace(".onnx", "_quantized.onnx")`.
 - Ghost events (`Event`) record which external invocations were attempted.
-/

set_option autoImplicit false

namespace PaddleConvert

/-- MODEL_URLS["det"] from the script, as an association list. -/
def MODEL_URLS_det : List (String × String) :=
  [("mobile", "https://paddleocr.bj.bcebos.com/PP-OCRv4/chinese/ch_PP-OCRv4_det_infer.tar"),
   ("server", "https://paddleocr.bj.bcebos.com/PP-OCRv4/chinese/ch_PP-OCRv4_det_server_infer.tar")]

/-- MODEL_URLS["rec"] from the script, as an association list. -/
def MODEL_URLS_rec : List (String × String) :=
  [("mobile_en", "https://paddleocr.bj.bcebos.com/PP-OCRv4/english/en_PP-OCRv4_rec_infer.tar"),
   ("mobile_ch", "https://paddleocr.bj.bcebos.com/PP-OCRv4/chinese/ch_PP-OCRv4_rec_infer.tar"),
   ("server_en", "https://paddleocr.bj.bcebos.com/PP-OCRv4/english/en_PP-OCRv4_rec_server_infer.tar")]

/-- ONNX_SETTINGS from the script. -/
structure OnnxSettings where
  opset_version : Nat
  enable_onnx_checker : Bool
  enable_auto_update_opset : Bool
  deploy_backend : String
  save_external_data : Bool
  enable_optimize : Bool
deriving DecidableEq

def ONNX_SETTINGS : OnnxSettings :=
  { opset_version := 11
    enable_onnx_checker := true
    enable_auto_update_opset := true
    deploy_backend := "onnxruntime"
    save_external_data := false
    enable_optimize := true }

/-- Python dict assignment `d[k] = v` on an association list: replace the
value in place when the key is present, append otherwise. -/
def dictInsert {α : Type} : List (String × α) → String → α → List (String × α)
  | [], k, v => [(k, v)]
  | (k₁, v₁) :: rest, k, v =>
      if k₁ = k then (k, v) :: rest else (k₁, v₁) :: dictInsert rest k v

/-- Python dict lookup `d.get(k)` on an association list. -/
def dictGet {α : Type} : List (String × α) → String → Option α
  | [], _ => none
  | (k₁, v₁) :: rest, k => if k₁ = k then some v₁ else dictGet rest k

/-- Python `s.split(sep, 1)` unpacked into two variables, for `sep = "_"`:
split at the first underscore; `none` models the `ValueError` raised when the
token has no underscore. -/
def splitFirstUnderscore (s : String) : Option (String × String) :=
  match s.toList.findIdx? (fun c => c == '_') with
  | none => none
  | some i => some (String.mk (s.toList.take i), String.mk (s.toList.drop (i + 1)))

/-- Python `url.split("/")[-1]`: the last path segment of a URL. -/
def lastSegment (s : String) : String :=
  String.mk ((s.toList.reverse.takeWhile (fun c => c != '/')).reverse)

/-- Python `s.replace(".tar", "")` on the character list: delete every
non-overlapping occurrence of ".tar", scanning from the left. -/
def stripTar : List Char → List Char
  | '.' :: 't' :: 'a' :: 'r' :: rest => stripTar rest
  | c :: cs => c :: stripTar cs
  | [] => []

/-- Whether ".tar" occurs anywhere in the character list. -/
def containsTar : List Char → Bool
  | [] => false
  | c :: cs =>
      if c = '.' ∧ cs.take 3 = ['t', 'a', 'r'] then true else containsTar cs

/-- Lifting of `stripTar` to strings, i.e. Python `s.replace(".tar", "")`. -/
def stripTarStr (s : String) : String :=
  String.mk (stripTar s.toList)

/-- Python `s.replace(".onnx", "_quantized.onnx")` on the character list. -/
def replOnnxQuant : List Char → List Char
  | '.' :: 'o' :: 'n' :: 'n' :: 'x' :: rest =>
      '_' :: 'q' :: 'u' :: 'a' :: 'n' :: 't' :: 'i' :: 'z' :: 'e' :: 'd' ::
      '.' :: 'o' :: 'n' :: 'n' :: 'x' :: replOnnxQuant rest
  | c :: cs => c :: replOnnxQuant cs
  | [] => []

/-- Lifting of `replOnnxQuant` to strings. -/
def replOnnxQuantStr (s : String) : String :=
  String.mk (replOnnxQuant s.toList)

/-- Refinement-comparison definition following the words of the spec, not
the code: remove the trailing ".tar" extension (and only a trailing one). -/
def stripExt (cs : List Char) : List Char :=
  match cs.reverse with
  | 'r' :: 'a' :: 't' :: '.' :: rest => rest.reverse
  | _ => cs

/-- Refinement-comparison definition following the words of the spec: the
extracted directory is named by stripping the archive extension from the
archive filename (the last path segment of the URL), placed under the
destination directory. -/
def spec_extracted_path (url output_dir : String) : String :=
  output_dir ++ "/" ++ String.mk (stripExt (lastSegment url).toList)

/-- Filesystem state seen by `download_model`: the set of existing paths in
the scratch area, plus ghost counters of downloads and extractions actually
performed (each `subprocess.run` of wget resp. tar bumps one counter). -/
structure FetchState where
  fs : List String
  downloads : Nat
  extracts : Nat
deriving DecidableEq

/-- download_model(url, output_dir) from the script: skip the wget when the
archive file already exists, skip the tar extraction when the extracted
directory (the archive path with ".tar" removed) already exists, and return
the extracted directory path. -/
def download_model (url output_dir : String) (st : FetchState) : FetchState × String :=
  let filename := lastSegment url
  let filepath := output_dir ++ "/" ++ filename
  let st₁ :=
    if filepath ∈ st.fs then st
    else { st with fs := filepath :: st.fs, downloads := st.downloads + 1 }
  let extract_dir := stripTarStr filepath
  let st₂ :=
    if extract_dir ∈ st₁.fs then st₁
    else { st₁ with fs := extract_dir :: st₁.fs, extracts := st₁.extracts + 1 }
  (st₂, extract_dir)

/-- The external tools the script shells out to, as opaque content
transformers: `available` models whether the
`onnxruntime.transformers` / `onnxruntime.quantization` import at the top of
optimize_onnx_for_web succeeds; `convertContent` is what paddle2onnx writes
for a given checkpoint directory; `optimizeContent` and `quantizeContent`
are the optimizer and quantizer output for a given input content. -/
structure Tools where
  available : Bool
  convertContent : String → String
  optimizeContent : String → String
  quantizeContent : String → String

/-- The per-model manifest dict built in main: `mtype` is the dict key
"type"; the three `*_onnx` fields are the keys of the optimization branch;
`onnx` is the single key of the --skip-optimization branch. `none` models a
key being absent from the Python dict. -/
structure ModelInfo where
  mtype : String
  variant : String
  original_onnx : Option String
  optimized_onnx : Option String
  quantized_onnx : Option String
  onnx : Option String
deriving DecidableEq

/-- Ghost trace of external invocations attempted by the orchestrator. -/
inductive Event where
  | fetch (url : String)
  | convert (model_name : String) (input_shape : String)
  | optimize (model_name : String)
deriving DecidableEq

/-- Input-shape selection of convert_to_onnx: the "det" branch and its else
branch (reached with "rec" from main). Braces of the JSON literal are
written as character escapes. -/
def input_shape_dict (model_type : String) : String :=
  if model_type = "det" then "\x7b\"x\": [-1, 3, -1, -1]\x7d"
  else "\x7b\"x\": [-1, 3, 48, -1]\x7d"

/-- The paddle2onnx command line assembled by convert_to_onnx. -/
def convert_cmd (paddle_model_dir onnx_output_path model_type : String) : List String :=
  ["paddle2onnx",
   "--model_dir", paddle_model_dir,
   "--model_filename", "inference.pdmodel",
   "--params_filename", "inference.pdiparams",
   "--save_file", onnx_output_path,
   "--opset_version", toString ONNX_SETTINGS.opset_version,
   "--deploy_backend", ONNX_SETTINGS.deploy_backend]
  ++ (if ONNX_SETTINGS.enable_onnx_checker then ["--enable_onnx_checker"] else [])
  ++ (if ONNX_SETTINGS.enable_auto_update_opset then ["--enable_auto_update_opset"] else [])
  ++ ["--input_shape_dict", input_shape_dict model_type]

/-- optimize_onnx_for_web from the script, over the output-file map. With
tooling available it writes the optimized graph and then a quantized file at
`optimized_path.replace(".onnx", "_quantized.onnx")`; on ImportError it
falls back to `shutil.copy2(onnx_path, optimized_path)`, a byte-identical
copy, and writes no quantized file. Reading a missing input (impossible in
the orchestrated flow, where the converter has just written it) leaves the
map unchanged. -/
def optimize_onnx_for_web (t : Tools) (fs : List (String × String))
    (onnx_path optimized_path : String) : List (String × String) :=
  if t.available then
    match dictGet fs onnx_path with
    | none => fs
    | some c =>
        let oc := t.optimizeContent c
        let fs₁ := dictInsert fs optimized_path oc
        dictInsert fs₁ (replOnnxQuantStr optimized_path) (t.quantizeContent oc)
  else
    match dictGet fs onnx_path with
    | none => fs
    | some c => dictInsert fs optimized_path c

/-- RunManifest entry type: the models_metadata.json payload written by
create_model_metadata. -/
structure ShapeNote where
  input_shape : String
  notes : String
deriving DecidableEq

structure Metadata where
  version : String
  models : List (String × ModelInfo)
  conversion_settings : OnnxSettings
  detection : ShapeNote
  recognition : ShapeNote
deriving DecidableEq

/-- create_model_metadata from the script: the fixed metadata payload built
around the accumulated models_info dict. -/
def create_model_metadata (models_info : List (String × ModelInfo)) : Metadata :=
  { version := "PP-OCRv5"
    models := models_info
    conversion_settings := ONNX_SETTINGS
    detection := ⟨"[-1, 3, -1, -1]", "Dynamic batch and spatial dimensions"⟩
    recognition := ⟨"[-1, 3, 48, -1]", "Fixed height of 48, dynamic width"⟩ }

/-- The mutable state of the main loop: scratch filesystem (shared with
download_model), output files, the models_info dict, and the ghost event
trace. -/
structure MainState where
  fetchSt : FetchState
  files : List (String × String)
  models_info : List (String × ModelInfo)
  events : List Event
deriving DecidableEq

def initialMainState : MainState := ⟨⟨[], 0, 0⟩, [], [], []⟩

/-- The body of the main loop after a successful catalog lookup: download,
convert (with `convertFails` injecting a non-zero exit of paddle2onnx, whose
RuntimeError is caught by the per-model except), then unless
skip_optimization: optimize and record the raw/optimized/quantized names in
models_info — the quantized name is recorded unconditionally in this branch,
exactly as in main. -/
def runPipeline (t : Tools) (skip_optimization : Bool) (convertFails : String → Bool)
    (output_dir : String) (st : MainState)
    (model_spec model_type variant model_name url : String) : MainState :=
  let temp_dir := output_dir ++ "/temp"
  let fres := download_model url temp_dir st.fetchSt
  let paddle_model_dir := fres.2
  let onnx_path := output_dir ++ "/" ++ model_name ++ ".onnx"
  let shape := input_shape_dict model_type
  if convertFails model_spec then
    { st with
      fetchSt := fres.1
      events := st.events ++ [Event.fetch url, Event.convert model_name shape] }
  else
    let files₁ := dictInsert st.files onnx_path (t.convertContent paddle_model_dir)
    if skip_optimization then
      { st with
        fetchSt := fres.1
        files := files₁
        events := st.events ++ [Event.fetch url, Event.convert model_name shape]
        models_info := dictInsert st.models_info model_name
          { mtype := model_type
            variant := variant
            original_onnx := none
            optimized_onnx := none
            quantized_onnx := none
            onnx := some (model_name ++ ".onnx") } }
    else
      let optimized_path := output_dir ++ "/" ++ model_name ++ "_optimized.onnx"
      let files₂ := optimize_onnx_for_web t files₁ onnx_path optimized_path
      { st with
        fetchSt := fres.1
        files := files₂
        events := st.events ++
          [Event.fetch url, Event.convert model_name shape, Event.optimize model_name]
        models_info := dictInsert st.models_info model_name
          { mtype := model_type
            variant := variant
            original_onnx := some (model_name ++ ".onnx")
            optimized_onnx := some (model_name ++ "_optimized.onnx")
            quantized_onnx := some (replOnnxQuantStr (model_name ++ "_optimized.onnx"))
            onnx := none } }

/-- One iteration of the main loop over a request token: parse (a missing
underscore raises ValueError into the per-model except: skip), dispatch on
the task type ("det" / "rec" / unknown-type skip), look up the catalog
(missing variant: skip), then run the pipeline. -/
def processToken (t : Tools) (skip_optimization : Bool) (convertFails : String → Bool)
    (output_dir : String) (st : MainState) (model_spec : String) : MainState :=
  match splitFirstUnderscore model_spec with
  | none => st
  | some (model_type, variant) =>
      if model_type = "det" then
        match dictGet MODEL_URLS_det variant with
        | none => st
        | some url =>
            runPipeline t skip_optimization convertFails output_dir st
              model_spec model_type variant ("PP-OCRv5_" ++ variant ++ "_det") url
      else if model_type = "rec" then
        match dictGet MODEL_URLS_rec variant with
        | none => st
        | some url =>
            runPipeline t skip_optimization convertFails output_dir st
              model_spec model_type variant ("PP-OCRv5_" ++ variant ++ "_rec") url
      else st

/-- main from the script: fold the loop body over the requested tokens
starting from an empty state, then write the metadata file once over the
accumulated models_info. -/
def mainRun (t : Tools) (skip_optimization : Bool) (convertFails : String → Bool)
    (output_dir : String) (models : List String) : MainState × Metadata :=
  let final := models.foldl
    (fun st spec => processToken t skip_optimization convertFails output_dir st spec)
    initialMainState
  (final, create_model_metadata final.models_info)

/-- Concrete tool environments for witnesses: with and without the
optimization library. -/
def idTools : Tools := ⟨true, id, id, id⟩

def noTools : Tools := ⟨false, id, id, id⟩

/-- Whether a request token parses and resolves to a catalog URL, i.e.
whether the main loop reaches the pipeline for it. -/
def specResolved (spec : String) : Bool :=
  match splitFirstUnderscore spec with
  | none => false
  | some (ty, v) =>
      if ty = "det" then (dictGet MODEL_URLS_det v).isSome
      else if ty = "rec" then (dictGet MODEL_URLS_rec v).isSome
      else false

/-- The model name main derives for a token (meaningful when the token
parses and its type is "det" or "rec"; "" for unparseable tokens). -/
def nameOfSpec (spec : String) : String :=
  match splitFirstUnderscore spec with
  | none => ""
  | some (ty, v) =>
      if ty = "det" then "PP-OCRv5_" ++ v ++ "_det" else "PP-OCRv5_" ++ v ++ "_rec"

/-- A token that reaches the pipeline and whose conversion succeeds. -/
def goodToken (convertFails : String → Bool) (spec : String) : Bool :=
  specResolved spec && !(convertFails spec)

/-- Append-only key insertion: the effect of `dictInsert` on the key list. -/
def kinsert (l : List String) (k : String) : List String :=
  if k ∈ l then l else l ++ [k]

/- ### Association-list lemmas -/

example : (download_model "https://h/x.tar" "d" ⟨[], 0, 0⟩).2 = "d/x" := by decide
example : (download_model "https://h/x.tar" "d" ⟨[], 0, 0⟩).1.downloads = 1 := by decide
example :
    (mainRun idTools false (fun _ => false) "out" ["det_mobile"]).1.models_info.map Prod.fst
      = ["PP-OCRv5_mobile_det"] := by decide
example : splitFirstUnderscore "rec_server_en" = some ("rec", "server_en") := by decide
example : specResolved "det_bogus" = false := by decide
example : splitFirstUnderscore "det" = none := by decide

theorem dictGet_dictInsert_same {α : Type} (d : List (String × α)) (k : String) (v : α) :
    dictGet (dictInsert d k v) k = some v := by
  induction d with
  | nil => simp [dictInsert, dictGet]
  | cons p rest ih =>
      obtain ⟨k₁, v₁⟩ := p
      by_cases h : k₁ = k
      · simp [dictInsert, dictGet, h]
      · simp [dictInsert, dictGet, h, ih]

theorem dictGet_dictInsert_other {α : Type} (d : List (String × α)) (k k' : String) (v : α)
    (h : k' ≠ k) : dictGet (dictInsert d k v) k' = dictGet d k' := by
  induction d with
  | nil => simp [dictInsert, dictGet, Ne.symm h]
  | cons p rest ih =>
      obtain ⟨k₁, v₁⟩ := p
      by_cases h₁ : k₁ = k
      · subst h₁
        simp [dictInsert, dictGet, Ne.symm h]
      · simp [dictInsert, dictGet, h₁, ih]

theorem keys_dictInsert {α : Type} (d : List (String × α)) (k : String) (v : α) :
    (dictInsert d k v).map Prod.fst = kinsert (d.map Prod.fst) k := by
  induction d with
  | nil => simp [dictInsert, kinsert]
  | cons p rest ih =>
      obtain ⟨k₁, v₁⟩ := p
      by_cases h : k₁ = k
      · subst h
        simp [dictInsert, kinsert]
      · simp only [dictInsert, if_neg h, List.map_cons, ih, kinsert]
        by_cases hm : k ∈ rest.map Prod.fst
        · simp [List.mem_cons, hm, Ne.symm h]
        · simp [List.mem_cons, hm, Ne.symm h]

theorem kinsert_nodup (l : List String) (k : String) (h : l.Nodup) :
    (kinsert l k).Nodup := by
  unfold kinsert
  by_cases hm : k ∈ l
  · simpa [hm] using h
  · simp [hm, List.nodup_append, h]

theorem length_kinsert_not_mem (l : List String) (k : String) (h : k ∉ l) :
    (kinsert l k).length = l.length + 1 := by
  simp [kinsert, h]

/- ### Structural lemmas about the orchestrator loop -/

theorem models_info_keys_processToken (t : Tools) (so : Bool) (cf : String → Bool)
    (out : String) (st : MainState) (spec : String) :
    (processToken t so cf out st spec).models_info.map Prod.fst =
      if goodToken cf spec then kinsert (st.models_info.map Prod.fst) (nameOfSpec spec)
      else st.models_info.map Prod.fst := by
  unfold processToken goodToken specResolved nameOfSpec
  cases hsplit : splitFirstUnderscore spec with
  | none => simp
  | some p =>
      obtain ⟨ty, v⟩ := p
      by_cases hdet : ty = "det"
      · subst hdet
        cases hurl : dictGet MODEL_URLS_det v with
        | none => simp [hurl]
        | some url =>
            cases hcf : cf spec with
            | true => simp [runPipeline, hurl, hcf]
            | false => cases so <;> simp [runPipeline, hurl, hcf, keys_dictInsert]
      · by_cases hrec : ty = "rec"
        · subst hrec
          cases hurl : dictGet MODEL_URLS_rec v with
          | none => simp [hdet, hurl]
          | some url =>
              cases hcf : cf spec with
              | true => simp [hdet, runPipeline, hurl, hcf]
              | false => cases so <;> simp [hdet, runPipeline, hurl, hcf, keys_dictInsert]
        · simp [hdet, hrec]

theorem foldl_keys_nodup (t : Tools) (so : Bool) (cf : String → Bool) (out : String) :
    ∀ (models : List String) (st : MainState),
      (st.models_info.map Prod.fst).Nodup →
      (((models.foldl (fun st spec => processToken t so cf out st spec) st).models_info.map
          Prod.fst)).Nodup := by
  intro models
  induction models with
  | nil => intro st h; simpa using h
  | cons spec rest ih =>
      intro st h
      rw [List.foldl_cons]
      apply ih
      rw [models_info_keys_processToken]
      by_cases hg : goodToken cf spec
      · simp only [if_pos hg]
        exact kinsert_nodup _ _ h
      · simpa [if_neg hg] using h

theorem foldl_keys_length (t : Tools) (so : Bool) (cf : String → Bool) (out : String) :
    ∀ (models : List String) (st : MainState),
      (∀ s ∈ models, nameOfSpec s ∉ st.models_info.map Prod.fst) →
      (models.map nameOfSpec).Nodup →
      ((models.foldl (fun st spec => processToken t so cf out st spec) st).models_info.map
          Prod.fst).length
        = (st.models_info.map Prod.fst).length + models.countP (goodToken cf) := by
  intro models
  induction models with
  | nil => intro st _ _; simp
  | cons spec rest ih =>
      intro st hfresh hnodup
      rw [List.foldl_cons, List.countP_cons]
      have hkeys := models_info_keys_processToken t so cf out st spec
      have hname : nameOfSpec spec ∉ st.models_info.map Prod.fst :=
        hfresh spec (List.mem_cons_self spec rest)
      have hnodup' : (rest.map nameOfSpec).Nodup := (List.nodup_cons.mp hnodup).2
      have hnotin : nameOfSpec spec ∉ rest.map nameOfSpec := (List.nodup_cons.mp hnodup).1
      by_cases hg : goodToken cf spec
      · have hkeys' : (processToken t so cf out st spec).models_info.map Prod.fst
            = st.models_info.map Prod.fst ++ [nameOfSpec spec] := by
          rw [hkeys, if_pos hg, kinsert, if_neg hname]
        have hfresh' : ∀ s ∈ rest,
            nameOfSpec s ∉ (processToken t so cf out st spec).models_info.map Prod.fst := by
          intro s hs
          rw [hkeys']
          simp only [List.mem_append, List.mem_singleton]
          rintro (hin | heq)
          · exact hfresh s (List.mem_cons_of_mem spec hs) hin
          · exact hnotin (heq ▸ List.mem_map_of_mem nameOfSpec hs)
        rw [ih _ hfresh' hnodup', hkeys']
        simp [hg]
        omega
      · have hkeys' : (processToken t so cf out st spec).models_info.map Prod.fst
            = st.models_info.map Prod.fst := by rw [hkeys, if_neg hg]
        have hfresh' : ∀ s ∈ rest,
            nameOfSpec s ∉ (processToken t so cf out st spec).models_info.map Prod.fst := by
          intro s hs
          rw [hkeys']
          exact hfresh s (List.mem_cons_of_mem spec hs)
        rw [ih _ hfresh' hnodup', hkeys']
        simp [hg]

/- ### Lemmas about the ".tar" replacement -/

theorem take3_tar_exists (cs : List Char) (h : cs.take 3 = ['t', 'a', 'r']) :
    ∃ rest, cs = 't' :: 'a' :: 'r' :: rest := by
  rcases cs with _ | ⟨a, _ | ⟨b, _ | ⟨c, rest⟩⟩⟩ <;> simp_all

theorem containsTar_cons_false {c : Char} {cs : List Char}
    (h : containsTar (c :: cs) = false) :
    ¬(c = '.' ∧ cs.take 3 = ['t', 'a', 'r']) ∧ containsTar cs = false := by
  by_cases hP : c = '.' ∧ cs.take 3 = ['t', 'a', 'r']
  · simp [containsTar, hP] at h
  · rw [containsTar, if_neg hP] at h
    exact ⟨hP, h⟩

theorem stripTar_of_not_containsTar (xs : List Char) (h : containsTar xs = false) :
    stripTar xs = xs := by
  induction xs using stripTar.induct with
  | case1 rest => simp [containsTar] at h
  | case2 c cs h1 ih =>
      obtain ⟨hP, hcs⟩ := containsTar_cons_false h
      rw [stripTar.eq_2 c cs h1, ih hcs]
  | case3 => rfl

theorem stripTar_append_tar (xs : List Char) (h : containsTar xs = false) :
    stripTar (xs ++ ['.', 't', 'a', 'r']) = xs := by
  induction xs with
  | nil => rfl
  | cons c cs ih =>
      obtain ⟨hP, hcs⟩ := containsTar_cons_false h
      have hside : ∀ (rest : List Char), c = '.' →
          cs ++ ['.', 't', 'a', 'r'] = 't' :: 'a' :: 'r' :: rest → False := by
        intro rest hc heq
        rcases cs with _ | ⟨a, _ | ⟨b, _ | ⟨d, cs'⟩⟩⟩ <;> simp_all
      rw [List.cons_append, stripTar.eq_2 c (cs ++ ['.', 't', 'a', 'r']) hside, ih hcs]

/- ### Claim theorems -/

/-- C5: the fetch operation is idempotent — invoking `download_model` a
second time with the same URL and destination on the state left by the
first call changes nothing (no download, no extraction, the ghost counters
are untouched) and returns the same extracted path. -/
theorem c5_fetch_idempotent (url output_dir : String) (st : FetchState) :
    download_model url output_dir (download_model url output_dir st).1
      = download_model url output_dir st := by
  have hboth : ∀ s : FetchState,
      (output_dir ++ "/" ++ lastSegment url) ∈ s.fs →
      stripTarStr (output_dir ++ "/" ++ lastSegment url) ∈ s.fs →
      download_model url output_dir s
        = (s, stripTarStr (output_dir ++ "/" ++ lastSegment url)) := by
    intro s hf he
    unfold download_model
    simp [hf, he]
  have h1 : (output_dir ++ "/" ++ lastSegment url)
      ∈ (download_model url output_dir st).1.fs := by
    simp only [download_model]
    split_ifs <;> simp_all [List.mem_cons]
  have h2 : stripTarStr (output_dir ++ "/" ++ lastSegment url)
      ∈ (download_model url output_dir st).1.fs := by
    simp only [download_model]
    split_ifs <;> simp_all [List.mem_cons]
  have h3 : (download_model url output_dir st).2
      = stripTarStr (output_dir ++ "/" ++ lastSegment url) := rfl
  rw [hboth _ h1 h2, ← h3]

/-- C7: a token that parses but whose (taskType, variant) pair is not in the
source catalog is a complete no-op for the orchestrator loop: no fetch,
no conversion, no optimization, no manifest entry, and the loop simply
proceeds (the state is returned unchanged). -/
theorem c7_catalog_miss_skip (t : Tools) (so : Bool) (cf : String → Bool) (out : String)
    (st : MainState) (spec ty v : String)
    (hsplit : splitFirstUnderscore spec = some (ty, v))
    (hdet : ty = "det" → dictGet MODEL_URLS_det v = none)
    (hrec : ty = "rec" → dictGet MODEL_URLS_rec v = none) :
    processToken t so cf out st spec = st := by
  unfold processToken
  simp only [hsplit]
  by_cases h1 : ty = "det"
  · rw [if_pos h1, hdet h1]
  · rw [if_neg h1]
    by_cases h2 : ty = "rec"
    · rw [if_pos h2, hrec h2]
    · rw [if_neg h2]

theorem c7_catalog_miss_skip_witness :
    splitFirstUnderscore "det_bogus" = some ("det", "bogus") ∧
      processToken idTools false (fun _ => false) "out" initialMainState "det_bogus"
        = initialMainState :=
  ⟨by decide,
    c7_catalog_miss_skip idTools false (fun _ => false) "out" initialMainState
      "det_bogus" "det" "bogus" (by decide) (by decide) (by decide)⟩

/-- C9: a request token with no underscore makes the tuple unpacking raise
ValueError, which the per-model except catches: the loop state is unchanged
(no fetch, no conversion, no manifest entry) and the batch continues with
the remaining tokens. -/
theorem c9_no_underscore_skip (t : Tools) (so : Bool) (cf : String → Bool) (out : String)
    (spec : String) (hsplit : splitFirstUnderscore spec = none) :
    (∀ st : MainState, processToken t so cf out st spec = st) ∧
      ∀ rest : List String,
        mainRun t so cf out (spec :: rest) = mainRun t so cf out rest := by
  have hpt : ∀ st : MainState, processToken t so cf out st spec = st := by
    intro st
    unfold processToken
    rw [hsplit]
  refine ⟨hpt, ?_⟩
  intro rest
  unfold mainRun
  rw [List.foldl_cons, hpt]

theorem c9_no_underscore_skip_witness :
    splitFirstUnderscore "det" = none ∧
      processToken idTools false (fun _ => false) "out" initialMainState "det"
        = initialMainState :=
  ⟨by decide,
    (c9_no_underscore_skip idTools false (fun _ => false) "out" "det" (by decide)).1
      initialMainState⟩

/-- C10: the manifest is a dict keyed by derived model name: after any run
its keys are pairwise distinct, so it never holds two entries for one model
name — duplicate successful tokens collapse to a single entry. -/
theorem c10_manifest_unique_keys (t : Tools) (so : Bool) (cf : String → Bool)
    (out : String) (models : List String) (name : String) :
    ((mainRun t so cf out models).1.models_info.map Prod.fst).Nodup ∧
      ((mainRun t so cf out models).1.models_info.filter
          (fun p => p.1 == name)).length ≤ 1 := by
  have hnodup : ((mainRun t so cf out models).1.models_info.map Prod.fst).Nodup := by
    unfold mainRun
    exact foldl_keys_nodup t so cf out models initialMainState (by simp [initialMainState])
  refine ⟨hnodup, ?_⟩
  have hcount := List.nodup_iff_count_le_one.mp hnodup name
  rw [← List.countP_eq_length_filter]
  calc ((mainRun t so cf out models).1.models_info.countP (fun p => p.1 == name))
      = ((mainRun t so cf out models).1.models_info.map Prod.fst).countP
          (fun k => k == name) := by
        rw [List.countP_map]
        rfl
    _ ≤ 1 := hcount

/-- C3 counterexample: the claim that no token of the form
"taskType_variant" resolves to the server_en recognition entry is false —
the token "rec_server_en" splits at its first underscore into
("rec", "server_en"), which is exactly the server_en key of the recognition
catalog, so the batch parser does reach that entry. -/
theorem c3_server_en_counterexample :
    splitFirstUnderscore "rec_server_en" = some ("rec", "server_en") ∧
      dictGet MODEL_URLS_rec "server_en"
        = some "https://paddleocr.bj.bcebos.com/PP-OCRv4/english/en_PP-OCRv4_rec_server_infer.tar" ∧
      specResolved "rec_server_en" = true := by decide

/-- C3 amended: the server_en recognition catalog entry IS reachable through
the token-naming convention of the batch parser: requesting the token
"rec_server_en" resolves to it, fetches its URL and records the manifest
entry PP-OCRv5_server_en_rec (the token is merely absent from the examples
listed in the --models help text). -/
theorem c3_server_en_amended (t : Tools) :
    (mainRun t false (fun _ => false) "out" ["rec_server_en"]).1.models_info.map Prod.fst
        = ["PP-OCRv5_server_en_rec"] ∧
      Event.fetch "https://paddleocr.bj.bcebos.com/PP-OCRv4/english/en_PP-OCRv4_rec_server_infer.tar"
        ∈ (mainRun t false (fun _ => false) "out" ["rec_server_en"]).1.events :=
  ⟨rfl, List.mem_cons_self _ _⟩

/-- C2: every conversion invocation the orchestrator makes carries an
input-shape specification determined solely by the task type of the token:
a "det" token always passes the dynamic-batch/height/width shape, a "rec"
token always passes the height-48/dynamic-width shape, and a token with any
other task type produces no conversion invocation at all (the membership
hypothesis is then unsatisfiable). -/
theorem c2_shape_selection (t : Tools) (so : Bool) (cf : String → Bool) (out : String)
    (st : MainState) (spec n s : String)
    (hmem : Event.convert n s ∈
      (processToken t so cf out st spec).events.drop st.events.length) :
    (∃ v, splitFirstUnderscore spec = some ("det", v)
        ∧ s = input_shape_dict "det" ∧ s = "\x7b\"x\": [-1, 3, -1, -1]\x7d") ∨
    (∃ v, splitFirstUnderscore spec = some ("rec", v)
        ∧ s = input_shape_dict "rec" ∧ s = "\x7b\"x\": [-1, 3, 48, -1]\x7d") := by
  unfold processToken at hmem
  cases hsplit : splitFirstUnderscore spec with
  | none =>
      simp only [hsplit, List.drop_length] at hmem
      simp at hmem
  | some p =>
      obtain ⟨ty, v⟩ := p
      simp only [hsplit] at hmem
      by_cases hdet : ty = "det"
      · subst hdet
        rw [if_pos rfl] at hmem
        cases hurl : dictGet MODEL_URLS_det v with
        | none =>
            simp only [hurl, List.drop_length] at hmem
            simp at hmem
        | some url =>
            simp only [hurl, runPipeline] at hmem
            left
            refine ⟨v, rfl, ?_⟩
            split at hmem <;>
              [skip; split at hmem] <;>
              simp only [List.drop_left] at hmem <;>
              simp_all [input_shape_dict]
      · rw [if_neg hdet] at hmem
        by_cases hrec : ty = "rec"
        · subst hrec
          rw [if_pos rfl] at hmem
          cases hurl : dictGet MODEL_URLS_rec v with
          | none =>
              simp only [hurl, List.drop_length] at hmem
              simp at hmem
          | some url =>
              simp only [hurl, runPipeline] at hmem
              right
              refine ⟨v, rfl, ?_⟩
              split at hmem <;>
                [skip; split at hmem] <;>
                simp only [List.drop_left] at hmem <;>
                simp_all [input_shape_dict]
        · rw [if_neg hrec, List.drop_length] at hmem
          simp at hmem

theorem c2_shape_selection_witness :
    (∃ v, splitFirstUnderscore "det_mobile" = some ("det", v)
        ∧ "\x7b\"x\": [-1, 3, -1, -1]\x7d" = input_shape_dict "det"
        ∧ ("\x7b\"x\": [-1, 3, -1, -1]\x7d" : String) = "\x7b\"x\": [-1, 3, -1, -1]\x7d") ∨
    (∃ v, splitFirstUnderscore "det_mobile" = some ("rec", v)
        ∧ "\x7b\"x\": [-1, 3, -1, -1]\x7d" = input_shape_dict "rec"
        ∧ ("\x7b\"x\": [-1, 3, -1, -1]\x7d" : String) = "\x7b\"x\": [-1, 3, 48, -1]\x7d") :=
  c2_shape_selection idTools false (fun _ => false) "out" initialMainState "det_mobile"
    "PP-OCRv5_mobile_det" "\x7b\"x\": [-1, 3, -1, -1]\x7d" (by decide)

/-- C6: per-model failure isolation — in a batch whose tokens all resolve in
the catalog and derive pairwise distinct model names, when
the conversion step of exactly one token fails (the injected RuntimeError is caught at the
loop boundary), the final manifest has exactly N-1 entries and the metadata
written at the end of the run carries exactly that manifest. -/
theorem c6_failure_isolation (t : Tools) (so : Bool) (out : String)
    (models : List String) (bad : String)
    (hres : ∀ sp ∈ models, specResolved sp = true)
    (hnodup : (models.map nameOfSpec).Nodup)
    (_hmem : bad ∈ models) (hcount : models.count bad = 1) :
    (mainRun t so (fun sp => sp == bad) out models).1.models_info.length
        = models.length - 1 ∧
      (mainRun t so (fun sp => sp == bad) out models).2.models
        = (mainRun t so (fun sp => sp == bad) out models).1.models_info := by
  refine ⟨?_, rfl⟩
  have hlen := foldl_keys_length t so (fun sp => sp == bad) out models initialMainState
    (by simp [initialMainState]) hnodup
  have hmap : (mainRun t so (fun sp => sp == bad) out models).1.models_info.length
      = ((mainRun t so (fun sp => sp == bad) out models).1.models_info.map Prod.fst).length := by
    rw [List.length_map]
  rw [hmap]
  unfold mainRun
  rw [hlen]
  have hcong : models.countP (goodToken (fun sp => sp == bad))
      = models.countP (fun sp => !(sp == bad)) := by
    apply List.countP_congr
    intro x hx
    simp [goodToken, hres x hx]
  have hsplitlen := List.length_eq_countP_add_countP (fun sp => sp == bad) models
  have hcnt : models.countP (fun sp => sp == bad) = 1 := by
    rw [← hcount]
    rfl
  have hnot : models.countP (fun a => decide ¬((a == bad) = true))
      = models.countP (fun sp => !(sp == bad)) := by
    apply List.countP_congr
    intro x _
    simp
  rw [hcong]
  simp only [initialMainState, List.map_nil, List.length_nil, Nat.zero_add]
  omega

theorem c6_failure_isolation_witness :
    (mainRun idTools false (fun sp => sp == "rec_mobile_en") "out"
        ["det_mobile", "rec_mobile_en", "det_server"]).1.models_info.length
      = ["det_mobile", "rec_mobile_en", "det_server"].length - 1 :=
  (c6_failure_isolation idTools false "out" ["det_mobile", "rec_mobile_en", "det_server"]
    "rec_mobile_en" (by decide) (by decide) (by decide) (by decide)).1

theorem stripExt_append_tar (base : List Char) :
    stripExt (base ++ ['.', 't', 'a', 'r']) = base := by
  unfold stripExt
  rw [List.reverse_append]
  show base.reverse.reverse = base
  exact List.reverse_reverse base

/-- C4 counterexample: the returned extracted path is not, in general, the
archive filename with its extension stripped under the destination — the
code removes every occurrence of ".tar" from the whole joined path. For the
URL "http://h/m.tar.tar" the code returns "d/m" while stripping the archive
extension from the filename would give "d/m.tar". -/
theorem c4_extract_path_counterexample :
    (download_model "http://h/m.tar.tar" "d" ⟨[], 0, 0⟩).2 = "d/m" ∧
      spec_extracted_path "http://h/m.tar.tar" "d" = "d/m.tar" ∧
      ¬(download_model "http://h/m.tar.tar" "d" ⟨[], 0, 0⟩).2
          = spec_extracted_path "http://h/m.tar.tar" "d" := by
  decide

/-- C4 amended: the fetch operation returns the joined destination/filename
path with every occurrence of ".tar" deleted; whenever ".tar" occurs exactly
once, as the trailing extension of the archive filename, and nowhere in the
destination directory or the filename stem, this coincides with the path
described by the spec (extension-stripped filename under the destination). -/
theorem c4_extract_path_amended (url output_dir : String) (st : FetchState)
    (base : List Char)
    (hname : (lastSegment url).toList = base ++ ['.', 't', 'a', 'r'])
    (hclean : containsTar ((output_dir ++ "/").toList ++ base) = false) :
    (download_model url output_dir st).2 = output_dir ++ "/" ++ String.mk base ∧
      (download_model url output_dir st).2 = spec_extracted_path url output_dir := by
  have hdata : (output_dir ++ "/" ++ lastSegment url).toList
      = ((output_dir ++ "/").toList ++ base) ++ ['.', 't', 'a', 'r'] := by
    have h1 : (output_dir ++ "/" ++ lastSegment url).toList
        = (output_dir ++ "/").toList ++ (lastSegment url).toList :=
      String.data_append (output_dir ++ "/") (lastSegment url)
    rw [h1, hname, ← List.append_assoc]
  have hres : (download_model url output_dir st).2
      = output_dir ++ "/" ++ String.mk base := by
    have h2 : (download_model url output_dir st).2
        = String.mk (stripTar ((output_dir ++ "/" ++ lastSegment url).toList)) := rfl
    rw [h2, hdata, stripTar_append_tar _ hclean]
    rfl
  have hspec : spec_extracted_path url output_dir
      = output_dir ++ "/" ++ String.mk base := by
    unfold spec_extracted_path
    rw [hname, stripExt_append_tar]
  exact ⟨hres, hres.trans hspec.symm⟩

theorem c4_extract_path_witness :
    (lastSegment "http://h/m.tar").toList = ['m'] ++ ['.', 't', 'a', 'r'] ∧
      containsTar (("d" ++ "/").toList ++ ['m']) = false ∧
      (download_model "http://h/m.tar" "d" ⟨[], 0, 0⟩).2
        = spec_extracted_path "http://h/m.tar" "d" :=
  ⟨by decide, by decide,
    (c4_extract_path_amended "http://h/m.tar" "d" ⟨[], 0, 0⟩ ['m']
      (by decide) (by decide)).2⟩

/-- C1 counterexample: with optimization tooling unavailable the optimized
file is indeed a byte-identical copy of the raw converted graph, but the
manifest entry still records a quantized-artifact name (the loop in main
records `quantized_onnx` unconditionally whenever optimization is not
skipped), so the manifest does NOT record only artifacts actually
produced. -/
theorem c1_fallback_manifest_counterexample :
    noTools.available = false ∧
      dictGet (mainRun noTools false (fun _ => false) "out" ["det_mobile"]).1.files
          "out/PP-OCRv5_mobile_det_optimized.onnx"
        = dictGet (mainRun noTools false (fun _ => false) "out" ["det_mobile"]).1.files
          "out/PP-OCRv5_mobile_det.onnx" ∧
      (dictGet (mainRun noTools false (fun _ => false) "out" ["det_mobile"]).1.models_info
          "PP-OCRv5_mobile_det").map ModelInfo.quantized_onnx
        = some (some "PP-OCRv5_mobile_det_optimized_quantized.onnx") := by
  decide

/-- C1 amended: when the optimization tooling is unavailable, the optimized
output file is a byte-identical copy of the raw converted graph and no
quantized file is produced on disk, but the manifest entry for the model
nevertheless records a quantized-artifact name pointing at a file that was
never written. -/
theorem c1_fallback_copy_amended (t : Tools) (h : t.available = false) :
    dictGet (mainRun t false (fun _ => false) "out" ["det_mobile"]).1.files
        "out/PP-OCRv5_mobile_det_optimized.onnx"
      = dictGet (mainRun t false (fun _ => false) "out" ["det_mobile"]).1.files
        "out/PP-OCRv5_mobile_det.onnx" ∧
    dictGet (mainRun t false (fun _ => false) "out" ["det_mobile"]).1.files
        "out/PP-OCRv5_mobile_det_optimized_quantized.onnx" = none ∧
    (dictGet (mainRun t false (fun _ => false) "out" ["det_mobile"]).1.models_info
        "PP-OCRv5_mobile_det").map ModelInfo.quantized_onnx
      = some (some "PP-OCRv5_mobile_det_optimized_quantized.onnx") := by
  have hfiles : (mainRun t false (fun _ => false) "out" ["det_mobile"]).1.files
      = optimize_onnx_for_web t
          [("out/PP-OCRv5_mobile_det.onnx",
            t.convertContent "out/temp/ch_PP-OCRv4_det_infer")]
          "out/PP-OCRv5_mobile_det.onnx" "out/PP-OCRv5_mobile_det_optimized.onnx" := rfl
  have hfall : optimize_onnx_for_web t
        [("out/PP-OCRv5_mobile_det.onnx",
          t.convertContent "out/temp/ch_PP-OCRv4_det_infer")]
        "out/PP-OCRv5_mobile_det.onnx" "out/PP-OCRv5_mobile_det_optimized.onnx"
      = [("out/PP-OCRv5_mobile_det.onnx",
          t.convertContent "out/temp/ch_PP-OCRv4_det_infer"),
         ("out/PP-OCRv5_mobile_det_optimized.onnx",
          t.convertContent "out/temp/ch_PP-OCRv4_det_infer")] := by
    unfold optimize_onnx_for_web
    rw [h]
    rfl
  refine ⟨?_, ?_, rfl⟩
  · rw [hfiles, hfall]
    rfl
  · rw [hfiles, hfall]
    rfl

theorem c1_fallback_copy_witness :
    noTools.available = false ∧
      dictGet (mainRun noTools false (fun _ => false) "out" ["det_mobile"]).1.files
          "out/PP-OCRv5_mobile_det_optimized_quantized.onnx" = none :=
  ⟨rfl, (c1_fallback_copy_amended noTools rfl).2.1⟩

/-- C8: end-to-end example — requesting ["det_mobile", "rec_mobile_en",
"det_bogus"] with optimization enabled and tooling present yields a manifest
with exactly the entries PP-OCRv5_mobile_det and PP-OCRv5_mobile_en_rec,
each recording raw, optimized and quantized file names; det_bogus is absent;
and the metadata written at the end contains both entries together with the
detection and recognition shape-documentation notes. -/
theorem c8_end_to_end :
    (mainRun idTools false (fun _ => false) "out"
        ["det_mobile", "rec_mobile_en", "det_bogus"]).1.models_info
      = [("PP-OCRv5_mobile_det",
          { mtype := "det", variant := "mobile",
            original_onnx := some "PP-OCRv5_mobile_det.onnx",
            optimized_onnx := some "PP-OCRv5_mobile_det_optimized.onnx",
            quantized_onnx := some "PP-OCRv5_mobile_det_optimized_quantized.onnx",
            onnx := none }),
         ("PP-OCRv5_mobile_en_rec",
          { mtype := "rec", variant := "mobile_en",
            original_onnx := some "PP-OCRv5_mobile_en_rec.onnx",
            optimized_onnx := some "PP-OCRv5_mobile_en_rec_optimized.onnx",
            quantized_onnx := some "PP-OCRv5_mobile_en_rec_optimized_quantized.onnx",
            onnx := none })] ∧
      dictGet (mainRun idTools false (fun _ => false) "out"
          ["det_mobile", "rec_mobile_en", "det_bogus"]).1.models_info
          "PP-OCRv5_bogus_det" = none ∧
      specResolved "det_bogus" = false ∧
      (mainRun idTools false (fun _ => false) "out"
          ["det_mobile", "rec_mobile_en", "det_bogus"]).2
        = create_model_metadata
            (mainRun idTools false (fun _ => false) "out"
              ["det_mobile", "rec_mobile_en", "det_bogus"]).1.models_info ∧
      (mainRun idTools false (fun _ => false) "out"
          ["det_mobile", "rec_mobile_en", "det_bogus"]).2.detection
        = ⟨"[-1, 3, -1, -1]", "Dynamic batch and spatial dimensions"⟩ ∧
      (mainRun idTools false (fun _ => false) "out"
          ["det_mobile", "rec_mobile_en", "det_bogus"]).2.recognition
        = ⟨"[-1, 3, 48, -1]", "Fixed height of 48, dynamic width"⟩ := by
  decide

end PaddleConvert
